import Mathlib

/-!
Shallow embedding of the RetailCycle smart-inventory cycle-count engine
(App.tsx, Scanner.tsx, Reconciliation.tsx, services/inventoryService.ts).

Conventions of the embedding:
* A JavaScript `Set` of identifier strings is modelled as a duplicate-free
  `List String` in insertion order (JS sets iterate in insertion order);
  `Set.add` is `setAdd`, `Set.delete` is `setDelete`, `new Set(array)` is
  `setFromList`.
* TS `number` counts and prices are modelled as `Int` (all arithmetic in the
  embedded code paths is integral).
* An optional TS field (`reason?`, `manualCount?`, `lastAction?`, `endTime?`)
  is an `Option`.
* Wall-clock timestamps (`new Date().toLocaleTimeString(...)`) are passed in
  explicitly as a `now : String` parameter.
* Display-only fields (`imageUrl`, `priority`, `lastCounted`, product `type`)
  are omitted: no embedded operation reads them.
-/

/-- Counting mode of an item: unique-identifier scan versus aggregate
quantity entry (`countMethod: 'SCAN' | 'QUANTITY'` in types). -/
inductive CountMethod where
  | SCAN
  | QUANTITY
deriving DecidableEq, Repr

/-- Session status (`status: 'PENDING' | 'IN_PROGRESS' | 'COMPLETED'`). -/
inductive TaskStatus where
  | PENDING
  | IN_PROGRESS
  | COMPLETED
deriving DecidableEq, Repr

/-- Modelled from the spec: the closed enumeration of discrepancy causes
(`DiscrepancyReason` lives in types.ts, which is not among the provided
source files; the spec lists sold / transferred out / returned to warehouse /
other, and inventoryService.ts names SALES_FLOW, TRANSFER_OUT,
RETURN_WAREHOUSE, and Reconciliation.tsx names OTHER). -/
inductive DiscrepancyReason where
  | SALES_FLOW
  | TRANSFER_OUT
  | RETURN_WAREHOUSE
  | OTHER
deriving DecidableEq, Repr

/-- Discrepancy type tag (`type: 'SHORTAGE' | 'OVERAGE'`). -/
inductive DiscrepancyType where
  | SHORTAGE
  | OVERAGE
deriving DecidableEq, Repr

/-- An expected catalog entry within a session (the `Product` objects copied
into `task.items`); fields are the ones the embedded logic reads. -/
structure Item where
  sku : String
  name : String
  price : Int
  imei : String
  countMethod : CountMethod
  manualCount : Option Int := none
deriving DecidableEq, Repr

/-- A product returned by the catalog lookup (`getProductByImei`); the
calculator reads its sku, name and price. -/
structure Product where
  sku : String
  name : String
  price : Int
  imei : String
deriving DecidableEq, Repr

/-- One line of the reconciliation result (types.ts `Discrepancy`).
There is no note field: Reconciliation.tsx renders a free-text note input for
the OTHER reason but never binds or stores its value. -/
structure Discrepancy where
  imei : String
  sku : String
  name : String
  dtype : DiscrepancyType
  price : Int
  autoResolved : Bool
  reason : Option DiscrepancyReason := none
deriving DecidableEq, Repr

/-- The last-action record shown in the banner (`task.lastAction`). -/
structure LastAction where
  name : String
  time : String
  code : String
deriving DecidableEq, Repr

/-- One cycle-count session (types.ts `InventoryTask`). `scannedImeis` is the
JS `Set<string>` modelled as an insertion-ordered duplicate-free list. -/
structure InventoryTask where
  id : String
  date : String
  items : List Item
  status : TaskStatus
  scannedImeis : List String
  discrepancies : List Discrepancy
  lastAction : Option LastAction := none
  endTime : Option String := none
deriving DecidableEq, Repr

/-- JS `Set.add`: membership insertion keeping insertion order (an already
present element keeps its position, a new one is appended). -/
def setAdd (l : List String) (x : String) : List String :=
  if x ∈ l then l else l ++ [x]

/-- JS `Set.delete`: removes the element, preserving the order of the rest. -/
def setDelete (l : List String) (x : String) : List String :=
  l.filter (fun y => y ≠ x)

/-- JS `new Set(array)`: deduplication keeping first occurrences in order. -/
def setFromList (l : List String) : List String :=
  l.foldl setAdd []

/-- App.tsx `handleScan` (lines 106-125): adds the identifier to the observed
set and records the last action (the item name, or the unknown-item sentinel
when the identifier matches no expectation item). -/
def handleScan (task : InventoryTask) (imei : String) (now : String) : InventoryTask :=
  let newSet := setAdd task.scannedImeis imei
  let itemName :=
    match task.items.find? (fun i => i.imei = imei) with
    | some item => item.name
    | none => "Unknown/Extra Item"
  { task with
      scannedImeis := newSet,
      lastAction := some { name := itemName, time := now, code := imei } }

/-- Outcome popup state set by Scanner.tsx `processScan` (`scanResult`). -/
structure ScanResult where
  code : String
  isDuplicate : Bool
deriving DecidableEq, Repr

/-- Scanner.tsx `processScan` (lines 325-337): a duplicate identifier only
raises the duplicate-flagged result and does not invoke the scan-apply
handler; a fresh identifier is applied through `handleScan`. -/
def processScan (task : InventoryTask) (code : String) (now : String) :
    InventoryTask × ScanResult :=
  if code ∈ task.scannedImeis then
    (task, { code := code, isDuplicate := true })
  else
    (handleScan task code now, { code := code, isDuplicate := false })

/-- App.tsx `handleQuantityUpdate` (lines 127-165): writes the manual count
on every item of the SKU, and drives observed-set membership through the
SKU's representative identifier (the first item of that SKU): positive count
adds it and updates the last action, any other count deletes it. -/
def handleQuantityUpdate (task : InventoryTask) (sku : String) (count : Int)
    (now : String) : InventoryTask :=
  let updatedItems := task.items.map (fun item =>
    if item.sku = sku then { item with manualCount := some count } else item)
  match task.items.find? (fun i => i.sku = sku) with
  | some item =>
      if count > 0 then
        { task with
            items := updatedItems,
            scannedImeis := setAdd task.scannedImeis item.imei,
            lastAction := some { name := item.name, time := now, code := item.imei } }
      else
        { task with
            items := updatedItems,
            scannedImeis := setDelete task.scannedImeis item.imei }
  | none => { task with items := updatedItems }

/-- Outcome of the quantity-entry gate in Scanner.tsx. -/
inductive QuantityOutcome where
  | applied (task : InventoryTask)
  | zeroConfirm
deriving DecidableEq, Repr

/-- Scanner.tsx `handleQuantityChange` (lines 346-353), for an input string
that parses to the integer `num`: zero routes to the zero-confirmation modal
(no session effect until confirmed), every other integer - including a
negative one - is forwarded to `handleQuantityUpdate` at once. -/
def handleQuantityChange (task : InventoryTask) (sku : String) (num : Int)
    (now : String) : QuantityOutcome :=
  if num = 0 then QuantityOutcome.zeroConfirm
  else QuantityOutcome.applied (handleQuantityUpdate task sku num now)

/-- Blocking predicate of Reconciliation.tsx: `!d.autoResolved && !d.reason`. -/
def isUnresolved (d : Discrepancy) : Bool :=
  !d.autoResolved && d.reason.isNone

/-- Result of the submit button of the reconciliation screen. -/
inductive SubmitResult where
  | refused (d : Discrepancy)
  | confirmed (l : List Discrepancy)
deriving DecidableEq, Repr

/-- Reconciliation.tsx `handleSubmit` (lines 80-89): scrolls to the first
unresolved discrepancy when one exists, otherwise passes the list to
`onConfirm` unchanged. -/
def handleSubmit (l : List Discrepancy) : SubmitResult :=
  match l.find? isUnresolved with
  | some d => SubmitResult.refused d
  | none => SubmitResult.confirmed l

/-- inventoryService.ts `checkDynamicStatus` (lines 75-88): the reconciliation
oracle keyed on the last character of the identifier (`parseInt(imei.slice(-1))`;
a missing or non-digit last character yields NaN, hence no explanation). -/
def checkDynamicStatus (imei : String) : Option DiscrepancyReason :=
  match imei.toList.getLast? with
  | some c =>
      if c = '0' then some DiscrepancyReason.SALES_FLOW
      else if c = '1' then some DiscrepancyReason.TRANSFER_OUT
      else if c = '2' then some DiscrepancyReason.RETURN_WAREHOUSE
      else none
  | none => none

/-- Per-discrepancy body of Reconciliation.tsx `handleDynamicCheck`
(lines 55-72), parameterized by the oracle: only an entry with
`autoResolved == false` and no reason is queried; a returned reason marks it
auto-resolved, otherwise it is returned untouched. -/
def dynamicCheckStep (oracle : String → Option DiscrepancyReason)
    (d : Discrepancy) : Discrepancy :=
  if !d.autoResolved && d.reason.isNone then
    match oracle d.imei with
    | some r => { d with autoResolved := true, reason := some r }
    | none => d
  else d

/-- Reconciliation.tsx `handleDynamicCheck` (lines 55-72): the
auto-reconciliation pass maps `dynamicCheckStep` over the discrepancy list. -/
def handleDynamicCheck (oracle : String → Option DiscrepancyReason)
    (l : List Discrepancy) : List Discrepancy :=
  l.map (dynamicCheckStep oracle)

/-- SHORTAGE record pushed by the calculator for an unobserved expectation
item (Reconciliation.tsx lines 21-32): it carries the item's own fields. -/
def shortageOf (item : Item) : Discrepancy :=
  { imei := item.imei, sku := item.sku, name := item.name,
    dtype := DiscrepancyType.SHORTAGE, price := item.price,
    autoResolved := false, reason := none }

/-- OVERAGE record pushed by the calculator for an observed identifier with
no expectation item (Reconciliation.tsx lines 34-49): fields resolved via the
catalog lookup, with the unknown-item sentinel and zero price on a miss. -/
def overageOf (lookup : String → Option Product) (imei : String) : Discrepancy :=
  match lookup imei with
  | some p =>
      { imei := imei, sku := p.sku, name := p.name,
        dtype := DiscrepancyType.OVERAGE, price := p.price,
        autoResolved := false, reason := none }
  | none =>
      { imei := imei, sku := "UNKNOWN", name := "Unlisted Item",
        dtype := DiscrepancyType.OVERAGE, price := 0,
        autoResolved := false, reason := none }

/-- Fresh run of the Discrepancy Calculator (Reconciliation.tsx lines 18-50):
shortages in expectation-list order, then overages in observed-set iteration
order. -/
def computeDiscrepancies (lookup : String → Option Product)
    (task : InventoryTask) : List Discrepancy :=
  (task.items.filter (fun i => i.imei ∉ task.scannedImeis)).map shortageOf
    ++ (task.scannedImeis.filter
          (fun id => (task.items.find? (fun i => i.imei = id)).isNone)).map
        (overageOf lookup)

/-- Initialization of the reconciliation screen's discrepancy state
(Reconciliation.tsx lines 13-51): discrepancies surviving from a previous
visit are reused, otherwise the calculator runs fresh. -/
def initialDiscrepancies (lookup : String → Option Product)
    (task : InventoryTask) : List Discrepancy :=
  if task.discrepancies.length > 0 then task.discrepancies
  else computeDiscrepancies lookup task

/-- Comparator-induced order of the unscanned-list sort in Scanner.tsx
(lines 286-289): the comparator returns 0 on equal counting modes and puts
SCAN first otherwise, so `a` sorts no later than `b` exactly when the modes
are equal or `a` is a SCAN item. -/
def scanFirstLE (a b : Item) : Prop :=
  a.countMethod = b.countMethod ∨ a.countMethod = CountMethod.SCAN

instance : DecidableRel scanFirstLE := fun a b => by
  unfold scanFirstLE
  infer_instance

/-- Memoized ledger query of Scanner.tsx (lines 275-302). -/
structure ScannerView where
  unscannedItems : List Item
  scannedItems : List Item
  overageImeis : List String
deriving DecidableEq, Repr

/-- Scanner.tsx ledger query (lines 275-302): splits the expectation list by
observed-set membership, sorts the unscanned bucket SCAN-first with the
two-valued comparator under JS's stable `Array.prototype.sort` (modelled by
the stable `List.insertionSort`), and collects the observed identifiers with
no matching expectation item. The derived progress percentage is
display-only and not modelled. -/
def scannerView (task : InventoryTask) : ScannerView :=
  let unscanned := task.items.filter (fun i => i.imei ∉ task.scannedImeis)
  let scanned := task.items.filter (fun i => i.imei ∈ task.scannedImeis)
  let overage := task.scannedImeis.filter
    (fun id => (task.items.find? (fun i => i.imei = id)).isNone)
  { unscannedItems := List.insertionSort scanFirstLE unscanned,
    scannedItems := scanned,
    overageImeis := overage }

/-- Persisted record shape written by App.tsx `saveTaskToStorage`
(lines 25-42): the session as JSON, with the observed-identifier set encoded
as an explicit array by the custom replacer. -/
structure StoredTask where
  id : String
  date : String
  items : List Item
  status : TaskStatus
  scannedImeis : List String
  discrepancies : List Discrepancy
  lastAction : Option LastAction
  endTime : Option String
deriving DecidableEq, Repr

/-- App.tsx `saveTaskToStorage` (lines 25-42): serializes the session,
turning the observed set into an explicit list. -/
def saveTaskToStorage (task : InventoryTask) : StoredTask :=
  { id := task.id, date := task.date, items := task.items,
    status := task.status, scannedImeis := task.scannedImeis,
    discrepancies := task.discrepancies, lastAction := task.lastAction,
    endTime := task.endTime }

/-- App.tsx `loadTaskFromStorage` (lines 44-59): the reviver rebuilds the
uniqueness-enforcing observed set from the stored array (`new Set(value)`). -/
def loadTaskFromStorage (s : StoredTask) : InventoryTask :=
  { id := s.id, date := s.date, items := s.items, status := s.status,
    scannedImeis := setFromList s.scannedImeis,
    discrepancies := s.discrepancies, lastAction := s.lastAction,
    endTime := s.endTime }

/-- App.tsx `handleSignatureFinish` (lines 173-183): marks the session
COMPLETED and writes it to storage at once; the pair returned is the new
in-memory session and the record persisted for it. -/
def handleSignatureFinish (task : InventoryTask) : InventoryTask × StoredTask :=
  let finalTask := { task with status := TaskStatus.COMPLETED }
  (finalTask, saveTaskToStorage finalTask)

/-- Concrete expectation item: a SCAN-mode phone (fixture for witnesses). -/
def exItemA : Item :=
  { sku := "1000", name := "Phone A", price := 3000, imei := "A1",
    countMethod := CountMethod.SCAN, manualCount := none }

/-- Concrete expectation item: a second SCAN-mode phone (fixture). -/
def exItemB : Item :=
  { sku := "1001", name := "Phone B", price := 3100, imei := "B1",
    countMethod := CountMethod.SCAN, manualCount := none }

/-- Concrete expectation item: a QUANTITY-mode accessory (fixture). -/
def exItemQ : Item :=
  { sku := "1010", name := "Earbuds", price := 150, imei := "Q1",
    countMethod := CountMethod.QUANTITY, manualCount := some 2 }

/-- Concrete session fixture: items A, B, Q; A observed, plus the stray
identifier 900 observed; no discrepancies computed yet. -/
def exTask : InventoryTask :=
  { id := "PDD202610110001", date := "2026-10-11",
    items := [exItemA, exItemB, exItemQ],
    status := TaskStatus.IN_PROGRESS,
    scannedImeis := ["A1", "900"],
    discrepancies := [],
    lastAction := none, endTime := none }

/-- Concrete catalog lookup fixture: knows the stray identifier 900 only. -/
def exLookup : String → Option Product := fun imei =>
  if imei = "900" then
    some { sku := "S900", name := "Extra Phone", price := 500, imei := "900" }
  else none

/-- Concrete discrepancy fixture: classified with the sentinel OTHER reason
and, the model having no note field, necessarily without a note. -/
def exOtherDisc : Discrepancy :=
  { imei := "X1", sku := "S1", name := "N1",
    dtype := DiscrepancyType.SHORTAGE, price := 100,
    autoResolved := false, reason := some DiscrepancyReason.OTHER }

lemma mem_setAdd (l : List String) (x y : String) :
    y ∈ setAdd l x ↔ y ∈ l ∨ y = x := by
  unfold setAdd
  by_cases h : x ∈ l
  · simp only [if_pos h]
    constructor
    · exact Or.inl
    · rintro (hy | rfl)
      · exact hy
      · exact h
  · simp [if_neg h]

lemma setAdd_of_mem {l : List String} {x : String} (h : x ∈ l) :
    setAdd l x = l := by
  simp [setAdd, h]

lemma setAdd_of_not_mem {l : List String} {x : String} (h : x ∉ l) :
    setAdd l x = l ++ [x] := by
  simp [setAdd, h]

lemma setAdd_nodup {l : List String} {x : String} (h : l.Nodup) :
    (setAdd l x).Nodup := by
  unfold setAdd
  by_cases hx : x ∈ l
  · simpa [if_pos hx]
  · simp only [if_neg hx]
    simp [List.nodup_append, h, hx]

lemma mem_foldl_setAdd (l : List String) :
    ∀ (acc : List String) (x : String),
      x ∈ l.foldl setAdd acc ↔ x ∈ acc ∨ x ∈ l := by
  induction l with
  | nil => intro acc x; simp
  | cons a l ih =>
      intro acc x
      simp only [List.foldl_cons, ih, mem_setAdd, List.mem_cons]
      tauto

lemma nodup_foldl_setAdd (l : List String) :
    ∀ acc : List String, acc.Nodup → (l.foldl setAdd acc).Nodup := by
  induction l with
  | nil => intro acc h; simpa
  | cons a l ih => intro acc h; exact ih _ (setAdd_nodup h)

lemma mem_setFromList (l : List String) (x : String) :
    x ∈ setFromList l ↔ x ∈ l := by
  simp [setFromList, mem_foldl_setAdd]

lemma setFromList_nodup (l : List String) : (setFromList l).Nodup := by
  exact nodup_foldl_setAdd l [] List.nodup_nil

lemma foldl_setAdd_of_nodup (l : List String) :
    ∀ acc : List String, (∀ x ∈ l, x ∉ acc) → l.Nodup →
      l.foldl setAdd acc = acc ++ l := by
  induction l with
  | nil => intro acc _ _; simp
  | cons a l ih =>
      intro acc hdis hnd
      have ha : a ∉ acc := hdis a (List.mem_cons_self a l)
      have hnd2 := (List.nodup_cons.mp hnd)
      have step : setAdd acc a = acc ++ [a] := setAdd_of_not_mem ha
      simp only [List.foldl_cons, step]
      rw [ih (acc ++ [a])
        (by
          intro x hx
          simp only [List.mem_append, List.mem_singleton]
          rintro (hxa | rfl)
          · exact hdis x (List.mem_cons_of_mem a hx) hxa
          · exact hnd2.1 hx)
        hnd2.2]
      simp

lemma setFromList_of_nodup {l : List String} (h : l.Nodup) :
    setFromList l = l := by
  simpa [setFromList] using foldl_setAdd_of_nodup l [] (by simp) h

lemma find?_eq_some_split {α : Type} (p : α → Bool) :
    ∀ (l : List α) (a : α), l.find? p = some a →
      p a = true ∧ ∃ l1 l2, l = l1 ++ a :: l2 ∧ ∀ x ∈ l1, p x = false := by
  intro l
  induction l with
  | nil => intro a h; simp [List.find?] at h
  | cons b l ih =>
      intro a h
      by_cases hb : p b = true
      · rw [List.find?_cons_of_pos _ hb] at h
        obtain rfl : b = a := by injection h
        exact ⟨hb, [], l, by simp, by simp⟩
      · rw [List.find?_cons_of_neg _ (by simpa using hb)] at h
        obtain ⟨hpa, l1, l2, rfl, hall⟩ := ih a h
        refine ⟨hpa, b :: l1, l2, by simp, ?_⟩
        intro x hx
        rcases List.mem_cons.mp hx with rfl | hx2
        · simpa using hb
        · exact hall x hx2

lemma nodup_filter_eq_single (l : List String) (h : l.Nodup) (x : String)
    (hx : x ∈ l) : l.filter (fun y => y = x) = [x] := by
  induction l with
  | nil => simp at hx
  | cons a l ih =>
      have hnd := List.nodup_cons.mp h
      rcases List.mem_cons.mp hx with rfl | hxl
      · have : l.filter (fun y => y = x) = [] := by
          rw [List.filter_eq_nil_iff]
          intro b hb
          simp only [decide_eq_true_eq]
          intro hbx
          exact hnd.1 (hbx ▸ hb)
        simp [List.filter_cons, this]
      · have hax : a ≠ x := fun hax => hnd.1 (hax ▸ hxl)
        simp [List.filter_cons, hax, ih hnd.2 hxl]

lemma items_filter_imei (l : List Item) (h : (l.map Item.imei).Nodup)
    (item : Item) (hm : item ∈ l) :
    l.filter (fun i => i.imei = item.imei) = [item] := by
  induction l with
  | nil => simp at hm
  | cons a l ih =>
      rw [List.map_cons, List.nodup_cons] at h
      rcases List.mem_cons.mp hm with rfl | hml
      · have : l.filter (fun i => i.imei = item.imei) = [] := by
          rw [List.filter_eq_nil_iff]
          intro b hb
          simp only [decide_eq_true_eq]
          intro hbx
          exact h.1 (hbx ▸ List.mem_map_of_mem Item.imei hb)
        simp [List.filter_cons, this]
      · have hax : a.imei ≠ item.imei := fun hax =>
          h.1 (hax ▸ List.mem_map_of_mem Item.imei hml)
        simp [List.filter_cons, hax, ih h.2 hml]

lemma shortageOf_imei (i : Item) : (shortageOf i).imei = i.imei := rfl

lemma shortageOf_dtype (i : Item) :
    (shortageOf i).dtype = DiscrepancyType.SHORTAGE := rfl

lemma overageOf_imei (lookup : String → Option Product) (id : String) :
    (overageOf lookup id).imei = id := by
  cases h : lookup id <;> simp [overageOf, h]

lemma overageOf_dtype (lookup : String → Option Product) (id : String) :
    (overageOf lookup id).dtype = DiscrepancyType.OVERAGE := by
  cases h : lookup id <;> simp [overageOf, h]

lemma dynamicCheckStep_idem (oracle : String → Option DiscrepancyReason)
    (d : Discrepancy) :
    dynamicCheckStep oracle (dynamicCheckStep oracle d)
      = dynamicCheckStep oracle d := by
  by_cases h : (!d.autoResolved && d.reason.isNone) = true
  · cases ho : oracle d.imei with
    | some r =>
        have h1 : dynamicCheckStep oracle d
            = { d with autoResolved := true, reason := some r } := by
          unfold dynamicCheckStep
          rw [if_pos h, ho]
        rw [h1]
        unfold dynamicCheckStep
        simp
    | none =>
        have h1 : dynamicCheckStep oracle d = d := by
          unfold dynamicCheckStep
          rw [if_pos h, ho]
        rw [h1, h1]
  · have h1 : dynamicCheckStep oracle d = d := by
      unfold dynamicCheckStep
      rw [if_neg h]
    rw [h1, h1]

lemma countMethod_eq_quantity {b : Item}
    (h : b.countMethod ≠ CountMethod.SCAN) :
    b.countMethod = CountMethod.QUANTITY := by
  cases hb : b.countMethod with
  | SCAN => exact absurd hb h
  | QUANTITY => rfl

lemma orderedInsert_of_scanFirst {a : Item}
    (ha : a.countMethod = CountMethod.SCAN) (l : List Item) :
    List.orderedInsert scanFirstLE a l = a :: l := by
  cases l with
  | nil => rfl
  | cons b l =>
      have hab : scanFirstLE a b := Or.inr ha
      simp [List.orderedInsert, hab]

lemma orderedInsert_append_of_none (a : Item) (s q : List Item)
    (hs : ∀ b ∈ s, ¬ scanFirstLE a b) :
    List.orderedInsert scanFirstLE a (s ++ q)
      = s ++ List.orderedInsert scanFirstLE a q := by
  induction s with
  | nil => simp
  | cons b s ih =>
      have hb : ¬ scanFirstLE a b := hs b (List.mem_cons_self b s)
      simp [List.orderedInsert, hb,
        ih (fun c hc => hs c (List.mem_cons_of_mem b hc))]

lemma orderedInsert_of_quantity_all {a : Item}
    (ha : a.countMethod = CountMethod.QUANTITY) (q : List Item)
    (hq : ∀ b ∈ q, b.countMethod = CountMethod.QUANTITY) :
    List.orderedInsert scanFirstLE a q = a :: q := by
  cases q with
  | nil => rfl
  | cons b l =>
      have hab : scanFirstLE a b := Or.inl (by
        rw [ha, hq b (List.mem_cons_self b l)])
      simp [List.orderedInsert, hab]

lemma insertionSort_scanFirst (l : List Item) :
    List.insertionSort scanFirstLE l =
      l.filter (fun i => i.countMethod = CountMethod.SCAN)
        ++ l.filter (fun i => i.countMethod ≠ CountMethod.SCAN) := by
  induction l with
  | nil => rfl
  | cons a l ih =>
      show List.orderedInsert scanFirstLE a (List.insertionSort scanFirstLE l) = _
      rw [ih]
      cases hcm : a.countMethod with
      | SCAN =>
          rw [orderedInsert_of_scanFirst hcm]
          simp [List.filter_cons, hcm]
      | QUANTITY =>
          rw [orderedInsert_append_of_none a _ _ ?hs,
            orderedInsert_of_quantity_all hcm _ ?hq]
          case hs =>
            intro b hb
            have hbS : b.countMethod = CountMethod.SCAN := by
              have := (List.mem_filter.mp hb).2
              simpa using this
            intro hab
            rcases hab with heq | hsc
            · rw [hcm, hbS] at heq
              exact CountMethod.noConfusion heq
            · rw [hcm] at hsc
              exact CountMethod.noConfusion hsc
          case hq =>
            intro b hb
            have := (List.mem_filter.mp hb).2
            exact countMethod_eq_quantity (by simpa using this)
          simp [List.filter_cons, hcm]

lemma isUnresolved_iff (d : Discrepancy) :
    isUnresolved d = true ↔ d.autoResolved = false ∧ d.reason = none := by
  cases hr : d.reason <;>
    simp [isUnresolved, hr, Bool.and_eq_true, Bool.not_eq_true']

/-- C2: the reconciliation submit step is refused exactly when some
discrepancy has `autoResolved == false` and no reason; on refusal the first
such discrepancy is identified, and otherwise the unchanged list is passed
on to `onConfirm`. -/
theorem c2_submit_gate (l : List Discrepancy) :
    ((∃ d, handleSubmit l = SubmitResult.refused d) ↔
      ∃ d ∈ l, d.autoResolved = false ∧ d.reason = none) ∧
    (∀ d, handleSubmit l = SubmitResult.refused d →
      (d.autoResolved = false ∧ d.reason = none) ∧
      ∃ l1 l2, l = l1 ++ d :: l2 ∧
        ∀ x ∈ l1, ¬(x.autoResolved = false ∧ x.reason = none)) ∧
    ((∀ d ∈ l, ¬(d.autoResolved = false ∧ d.reason = none)) →
      handleSubmit l = SubmitResult.confirmed l) := by
  cases h : l.find? isUnresolved with
  | some d0 =>
      have hsub : handleSubmit l = SubmitResult.refused d0 := by
        simp [handleSubmit, h]
      obtain ⟨hp, l1, l2, hsplit, hall⟩ := find?_eq_some_split isUnresolved l d0 h
      have hd0 : d0.autoResolved = false ∧ d0.reason = none :=
        (isUnresolved_iff d0).mp hp
      have hmem : d0 ∈ l := by
        rw [hsplit]
        exact List.mem_append_right l1 (List.mem_cons_self d0 l2)
      refine ⟨⟨fun _ => ⟨d0, hmem, hd0⟩, fun _ => ⟨d0, hsub⟩⟩, ?_, ?_⟩
      · intro d hd
        rw [hsub] at hd
        obtain rfl : d0 = d := by injection hd
        refine ⟨hd0, l1, l2, hsplit, ?_⟩
        intro x hx hcontra
        have hfx := hall x hx
        rw [(isUnresolved_iff x).mpr hcontra] at hfx
        exact Bool.noConfusion hfx
      · intro hnone
        exact absurd hd0 (hnone d0 hmem)
  | none =>
      have hsub : handleSubmit l = SubmitResult.confirmed l := by
        simp [handleSubmit, h]
      have hforall := List.find?_eq_none.mp h
      refine ⟨⟨?_, ?_⟩, ?_, fun _ => hsub⟩
      · rintro ⟨d, hd⟩
        rw [hsub] at hd
        exact SubmitResult.noConfusion hd
      · rintro ⟨d, hdl, hdp⟩
        exact absurd ((isUnresolved_iff d).mpr hdp) (hforall d hdl)
      · intro d hd
        rw [hsub] at hd
        exact SubmitResult.noConfusion hd

/-- C3 counterexample: in the concrete session whose observed set already
holds A1, the first of two scans of A1 is reported as a duplicate and the
observed set does not grow at all, refuting the claim for arbitrary
sessions. -/
theorem c3_already_observed_counterexample :
    (processScan exTask "A1" "t1").2.isDuplicate = true ∧
    (processScan (processScan exTask "A1" "t1").1 "A1" "t2").1.scannedImeis.length
      = exTask.scannedImeis.length := by
  decide

/-- C3 (amended with the identifier not yet observed): scanning the same
fresh identifier twice adds exactly one member to the observed set - the set
grows by exactly one element, appended once - and the first scan is reported
non-duplicate while the second is reported duplicate. -/
theorem c3_scan_twice (task : InventoryTask) (code now1 now2 : String)
    (h : code ∉ task.scannedImeis) :
    (processScan task code now1).2.isDuplicate = false ∧
    (processScan (processScan task code now1).1 code now2).2.isDuplicate = true ∧
    (processScan (processScan task code now1).1 code now2).1.scannedImeis
      = task.scannedImeis ++ [code] ∧
    (processScan (processScan task code now1).1 code now2).1.scannedImeis.length
      = task.scannedImeis.length + 1 := by
  have h1 : processScan task code now1
      = (handleScan task code now1, { code := code, isDuplicate := false }) := by
    simp [processScan, h]
  have hset : (handleScan task code now1).scannedImeis
      = task.scannedImeis ++ [code] := by
    simp [handleScan, setAdd_of_not_mem h]
  have hmem : code ∈ (handleScan task code now1).scannedImeis := by
    rw [hset]
    simp
  have h2 : processScan (handleScan task code now1) code now2
      = (handleScan task code now1, { code := code, isDuplicate := true }) := by
    simp [processScan, hmem]
  rw [h1]
  simp only [h2, hset]
  simp

/-- C3 witness at a concrete fresh identifier. -/
theorem c3_scan_twice_witness :
    (processScan exTask "B1" "t1").2.isDuplicate = false :=
  (c3_scan_twice exTask "B1" "t1" "t2" (by decide)).1

/-- C10: processing a scan of an identifier already in the observed set
returns the session completely unchanged together with the duplicate-flagged
result - the scan-apply handler is not invoked - and hence the persisted
record is unchanged too. -/
theorem c10_duplicate_scan_frame (task : InventoryTask) (code now : String)
    (h : code ∈ task.scannedImeis) :
    processScan task code now = (task, { code := code, isDuplicate := true }) ∧
    saveTaskToStorage (processScan task code now).1 = saveTaskToStorage task := by
  have h1 : processScan task code now
      = (task, { code := code, isDuplicate := true }) := by
    simp [processScan, h]
  exact ⟨h1, by rw [h1]⟩

/-- C10 witness at the concrete session with A1 already observed. -/
theorem c10_duplicate_scan_frame_witness :
    processScan exTask "A1" "tt" = (exTask, { code := "A1", isDuplicate := true }) :=
  (c10_duplicate_scan_frame exTask "A1" "tt" (by decide)).1

/-- C4 counterexample: a negative count is not rejected - the quantity-entry
gate forwards it, the matching item's manual count becomes -1 and the session
changes, refuting the no-effect claim for negative input. -/
theorem c4_negative_count_counterexample :
    handleQuantityChange exTask "1010" (-1) "t0"
      = QuantityOutcome.applied (handleQuantityUpdate exTask "1010" (-1) "t0") ∧
    (handleQuantityUpdate exTask "1010" (-1) "t0").items.map Item.manualCount
      = [none, none, some (-1)] ∧
    handleQuantityUpdate exTask "1010" (-1) "t0" ≠ exTask := by
  decide

/-- C4 (amended): for a SKU present in the expectation list, a positive
count stores the manual count on the SKU's items and adds the representative
identifier to the observed set; zero removes it; a negative count is not
rejected - it stores the negative manual count and removes the
representative identifier exactly as zero does. Other identifiers'
membership is untouched. -/
theorem c4_set_quantity (task : InventoryTask) (sku : String) (count : Int)
    (now : String) (item : Item)
    (hfind : task.items.find? (fun i => i.sku = sku) = some item) :
    (∀ j ∈ (handleQuantityUpdate task sku count now).items,
      j.sku = sku → j.manualCount = some count) ∧
    (count > 0 →
      (handleQuantityUpdate task sku count now).scannedImeis
          = setAdd task.scannedImeis item.imei ∧
        item.imei ∈ (handleQuantityUpdate task sku count now).scannedImeis) ∧
    (count ≤ 0 →
      (handleQuantityUpdate task sku count now).scannedImeis
          = setDelete task.scannedImeis item.imei ∧
        item.imei ∉ (handleQuantityUpdate task sku count now).scannedImeis) ∧
    (∀ x, x ≠ item.imei →
      (x ∈ (handleQuantityUpdate task sku count now).scannedImeis ↔
        x ∈ task.scannedImeis)) := by
  have hitems : ∀ j ∈ (handleQuantityUpdate task sku count now).items,
      j.sku = sku → j.manualCount = some count := by
    intro j hj hsku
    have hj2 : j ∈ task.items.map (fun i =>
        if i.sku = sku then { i with manualCount := some count } else i) := by
      unfold handleQuantityUpdate at hj
      rw [hfind] at hj
      by_cases hc : count > 0 <;> simp [hc] at hj <;> simpa using hj
    obtain ⟨i, hi, rfl⟩ := List.mem_map.mp hj2
    by_cases h : i.sku = sku
    · simp [h]
    · rw [if_neg h] at hsku ⊢
      exact absurd hsku h
  by_cases hc : count > 0
  · have hset : (handleQuantityUpdate task sku count now).scannedImeis
        = setAdd task.scannedImeis item.imei := by
      simp only [handleQuantityUpdate, hfind]
      simp [hc]
    refine ⟨hitems, fun _ => ⟨hset, ?_⟩, fun hle => absurd hc (by omega), ?_⟩
    · rw [hset, mem_setAdd]
      exact Or.inr rfl
    · intro x hx
      rw [hset, mem_setAdd]
      constructor
      · rintro (hmem | rfl)
        · exact hmem
        · exact absurd rfl hx
      · exact Or.inl
  · have hset : (handleQuantityUpdate task sku count now).scannedImeis
        = setDelete task.scannedImeis item.imei := by
      simp only [handleQuantityUpdate, hfind]
      simp [hc]
    refine ⟨hitems, fun hpos => absurd hpos hc, fun _ => ⟨hset, ?_⟩, ?_⟩
    · rw [hset]
      simp [setDelete, List.mem_filter]
    · intro x hx
      rw [hset]
      simp [setDelete, List.mem_filter, hx]

/-- C4 witness: setting a positive count on the concrete QUANTITY SKU puts
its representative identifier into the observed set. -/
theorem c4_set_quantity_witness :
    "Q1" ∈ (handleQuantityUpdate exTask "1010" 3 "t3").scannedImeis :=
  (((c4_set_quantity exTask "1010" 3 "t3" exItemQ (by decide)).2.1) (by decide)).2

/-- C5: the auto-reconciliation pass leaves already-resolved or
already-classified entries untouched, marks a queried entry resolved with
the oracle's reason exactly when one is returned, leaves unexplained entries
unchanged, and is therefore idempotent for any fixed oracle. -/
theorem c5_auto_reconciliation_pass
    (oracle : String → Option DiscrepancyReason) (l : List Discrepancy) :
    (∀ d : Discrepancy, d.autoResolved = true ∨ d.reason ≠ none →
      dynamicCheckStep oracle d = d) ∧
    (∀ (d : Discrepancy) (r : DiscrepancyReason),
      d.autoResolved = false → d.reason = none → oracle d.imei = some r →
      dynamicCheckStep oracle d
        = { d with autoResolved := true, reason := some r }) ∧
    (∀ d : Discrepancy, d.autoResolved = false → d.reason = none →
      oracle d.imei = none → dynamicCheckStep oracle d = d) ∧
    handleDynamicCheck oracle (handleDynamicCheck oracle l)
      = handleDynamicCheck oracle l := by
  refine ⟨?_, ?_, ?_, ?_⟩
  · intro d hd
    unfold dynamicCheckStep
    rw [if_neg]
    intro hcond
    rw [Bool.and_eq_true, Bool.not_eq_true'] at hcond
    rcases hd with h | h
    · rw [h] at hcond
      exact Bool.noConfusion hcond.1
    · rw [Option.isNone_iff_eq_none] at hcond
      exact h hcond.2
  · intro d r h1 h2 h3
    unfold dynamicCheckStep
    rw [if_pos (by simp [h1, h2]), h3]
  · intro d h1 h2 h3
    unfold dynamicCheckStep
    rw [if_pos (by simp [h1, h2]), h3]
  · induction l with
    | nil => rfl
    | cons d l ih =>
        simp only [handleDynamicCheck, List.map_cons] at ih ⊢
        rw [dynamicCheckStep_idem, ih]

/-- C8 counterexample: completing signature capture on the concrete
in-progress session sets COMPLETED but leaves the completion timestamp
unset, refuting the recorded-timestamp part of the claim. -/
theorem c8_no_completion_timestamp_counterexample :
    (handleSignatureFinish exTask).1.status = TaskStatus.COMPLETED ∧
    (handleSignatureFinish exTask).1.endTime = none := by
  decide

/-- C8 (amended): completing signature capture sets the session status to
COMPLETED and persists exactly that completed session to the store
immediately, but records no completion timestamp - the endTime field is left
as it was. -/
theorem c8_signature_finish (task : InventoryTask) :
    (handleSignatureFinish task).1.status = TaskStatus.COMPLETED ∧
    (handleSignatureFinish task).1.endTime = task.endTime ∧
    (handleSignatureFinish task).1 = { task with status := TaskStatus.COMPLETED } ∧
    (handleSignatureFinish task).2 = saveTaskToStorage (handleSignatureFinish task).1 := by
  refine ⟨rfl, rfl, rfl, rfl⟩

/-- C9: the code accepts submission of a discrepancy classified with the
sentinel OTHER reason and no note - the note input is never captured or
validated, so the missing-note rejection the claim requires never happens. -/
theorem c9_other_without_note_accepted :
    handleSubmit [exOtherDisc] = SubmitResult.confirmed [exOtherDisc] := by
  decide

/-- C6: saving a session to the store (observed set encoded as an explicit
list) and loading it back reproduces the expectation list and the
discrepancy list exactly, and reproduces the observed set as a set - equal
membership, uniqueness re-enforced on load - with full equality whenever the
in-memory set invariant (no duplicates) holds. -/
theorem c6_storage_roundtrip (task : InventoryTask) :
    (loadTaskFromStorage (saveTaskToStorage task)).items = task.items ∧
    (loadTaskFromStorage (saveTaskToStorage task)).discrepancies
      = task.discrepancies ∧
    (∀ x, x ∈ (loadTaskFromStorage (saveTaskToStorage task)).scannedImeis ↔
      x ∈ task.scannedImeis) ∧
    (loadTaskFromStorage (saveTaskToStorage task)).scannedImeis.Nodup ∧
    (task.scannedImeis.Nodup →
      loadTaskFromStorage (saveTaskToStorage task) = task) := by
  refine ⟨rfl, rfl, ?_, ?_, ?_⟩
  · intro x
    simp only [loadTaskFromStorage, saveTaskToStorage]
    exact mem_setFromList task.scannedImeis x
  · exact setFromList_nodup task.scannedImeis
  · intro h
    simp [loadTaskFromStorage, saveTaskToStorage, setFromList_of_nodup h]

lemma filter_map_shortage (l : List Item) (p : Discrepancy → Bool) :
    (l.map shortageOf).filter p = (l.filter (fun i => p (shortageOf i))).map shortageOf := by
  rw [List.filter_map]
  rfl

lemma filter_map_overage (lookup : String → Option Product) (l : List String)
    (p : Discrepancy → Bool) :
    (l.map (overageOf lookup)).filter p
      = (l.filter (fun id => p (overageOf lookup id))).map (overageOf lookup) := by
  rw [List.filter_map]
  rfl

lemma overage_pred_of_matching (task : InventoryTask) (item : Item)
    (hitem : item ∈ task.items) (y : String)
    (hy : y ∈ task.scannedImeis.filter
      (fun id => (task.items.find? (fun i => i.imei = id)).isNone)) :
    y ≠ item.imei := by
  have hy2 := (List.mem_filter.mp hy).2
  rw [Option.isNone_iff_eq_none] at hy2
  have hnone := List.find?_eq_none.mp hy2 item hitem
  intro hcontra
  rw [hcontra] at hnone
  simp at hnone

/-- C1: on a session with an empty discrepancy list, the calculator emits
exactly one SHORTAGE per unobserved expectation item carrying that item's
own fields, exactly one OVERAGE per observed identifier without a matching
expectation item with fields resolved through the catalog lookup (unknown
sentinel and zero price on a miss), nothing for an identifier both expected
and observed; all shortages precede all overages and each group preserves
its input iteration order. -/
theorem c1_discrepancy_calculator (lookup : String → Option Product)
    (task : InventoryTask)
    (hEmpty : task.discrepancies = [])
    (hItems : (task.items.map Item.imei).Nodup)
    (hScan : task.scannedImeis.Nodup) :
    (∀ item ∈ task.items, item.imei ∉ task.scannedImeis →
      (initialDiscrepancies lookup task).filter (fun d => d.imei = item.imei)
        = [shortageOf item]) ∧
    (∀ id ∈ task.scannedImeis, (∀ i ∈ task.items, i.imei ≠ id) →
      (initialDiscrepancies lookup task).filter (fun d => d.imei = id)
        = [overageOf lookup id]) ∧
    (∀ item ∈ task.items, item.imei ∈ task.scannedImeis →
      (initialDiscrepancies lookup task).filter (fun d => d.imei = item.imei)
        = []) ∧
    ((initialDiscrepancies lookup task).filter
        (fun d => d.dtype = DiscrepancyType.SHORTAGE)
      ++ (initialDiscrepancies lookup task).filter
        (fun d => d.dtype = DiscrepancyType.OVERAGE)
      = initialDiscrepancies lookup task) ∧
    (((initialDiscrepancies lookup task).filter
        (fun d => d.dtype = DiscrepancyType.SHORTAGE)).map Discrepancy.imei
      = (task.items.filter (fun i => i.imei ∉ task.scannedImeis)).map Item.imei) ∧
    (((initialDiscrepancies lookup task).filter
        (fun d => d.dtype = DiscrepancyType.OVERAGE)).map Discrepancy.imei
      = task.scannedImeis.filter (fun id => ∀ i ∈ task.items, i.imei ≠ id)) := by
  have hds : initialDiscrepancies lookup task
      = (task.items.filter (fun i => i.imei ∉ task.scannedImeis)).map shortageOf
        ++ (task.scannedImeis.filter
            (fun id => (task.items.find? (fun i => i.imei = id)).isNone)).map
          (overageOf lookup) := by
    simp [initialDiscrepancies, hEmpty, computeDiscrepancies]
  have hSnodup : ((task.items.filter
      (fun i => i.imei ∉ task.scannedImeis)).map Item.imei).Nodup :=
    hItems.sublist (List.Sublist.map Item.imei (List.filter_sublist task.items))
  have hshort_self : ((task.items.filter
      (fun i => i.imei ∉ task.scannedImeis)).map shortageOf).filter
        (fun d => d.dtype = DiscrepancyType.SHORTAGE)
      = (task.items.filter (fun i => i.imei ∉ task.scannedImeis)).map shortageOf := by
    rw [List.filter_eq_self]
    intro d hd
    obtain ⟨i, _, rfl⟩ := List.mem_map.mp hd
    simp [shortageOf]
  have hshort_none : ((task.scannedImeis.filter
      (fun id => (task.items.find? (fun i => i.imei = id)).isNone)).map
        (overageOf lookup)).filter
          (fun d => d.dtype = DiscrepancyType.SHORTAGE) = [] := by
    rw [List.filter_eq_nil_iff]
    intro d hd
    obtain ⟨y, _, rfl⟩ := List.mem_map.mp hd
    simp [overageOf_dtype]
  have hover_self : ((task.scannedImeis.filter
      (fun id => (task.items.find? (fun i => i.imei = id)).isNone)).map
        (overageOf lookup)).filter
          (fun d => d.dtype = DiscrepancyType.OVERAGE)
      = (task.scannedImeis.filter
          (fun id => (task.items.find? (fun i => i.imei = id)).isNone)).map
        (overageOf lookup) := by
    rw [List.filter_eq_self]
    intro d hd
    obtain ⟨y, _, rfl⟩ := List.mem_map.mp hd
    simp [overageOf_dtype]
  have hover_none : ((task.items.filter
      (fun i => i.imei ∉ task.scannedImeis)).map shortageOf).filter
        (fun d => d.dtype = DiscrepancyType.OVERAGE) = [] := by
    rw [List.filter_eq_nil_iff]
    intro d hd
    obtain ⟨i, _, rfl⟩ := List.mem_map.mp hd
    simp [shortageOf]
  refine ⟨?_, ?_, ?_, ?_, ?_, ?_⟩
  · intro item hitem hnot
    have hleft : (task.items.filter (fun i => i.imei ∉ task.scannedImeis)).filter
        (fun i => (shortageOf i).imei = item.imei) = [item] := by
      have hmemS : item ∈ task.items.filter
          (fun i => i.imei ∉ task.scannedImeis) :=
        List.mem_filter.mpr ⟨hitem, by simpa using hnot⟩
      simpa only [shortageOf_imei] using
        items_filter_imei _ hSnodup item hmemS
    have hright : (task.scannedImeis.filter
        (fun id => (task.items.find? (fun i => i.imei = id)).isNone)).filter
          (fun id => (overageOf lookup id).imei = item.imei) = [] := by
      simp only [overageOf_imei]
      rw [List.filter_eq_nil_iff]
      intro y hy
      simpa using overage_pred_of_matching task item hitem y hy
    rw [hds, List.filter_append, filter_map_shortage, filter_map_overage,
      hleft, hright]
    simp
  · intro id hid hnomatch
    have hleft : (task.items.filter (fun i => i.imei ∉ task.scannedImeis)).filter
        (fun i => (shortageOf i).imei = id) = [] := by
      simp only [shortageOf_imei]
      rw [List.filter_eq_nil_iff]
      intro i hi
      have hmem : i ∈ task.items := (List.mem_filter.mp hi).1
      simpa using hnomatch i hmem
    have hO_mem : id ∈ task.scannedImeis.filter
        (fun x => (task.items.find? (fun i => i.imei = x)).isNone) := by
      refine List.mem_filter.mpr ⟨hid, ?_⟩
      rw [Option.isNone_iff_eq_none]
      refine List.find?_eq_none.mpr ?_
      intro i hi
      simpa using hnomatch i hi
    have hright : (task.scannedImeis.filter
        (fun x => (task.items.find? (fun i => i.imei = x)).isNone)).filter
          (fun y => (overageOf lookup y).imei = id) = [id] := by
      simp only [overageOf_imei]
      exact nodup_filter_eq_single _ (hScan.filter _) id hO_mem
    rw [hds, List.filter_append, filter_map_shortage, filter_map_overage,
      hleft, hright]
    simp
  · intro item hitem hin
    have hleft : (task.items.filter (fun i => i.imei ∉ task.scannedImeis)).filter
        (fun i => (shortageOf i).imei = item.imei) = [] := by
      simp only [shortageOf_imei]
      rw [List.filter_eq_nil_iff]
      intro i hi
      have hnotin : i.imei ∉ task.scannedImeis := by
        have := (List.mem_filter.mp hi).2
        simpa using this
      intro hcontra
      rw [decide_eq_true_eq] at hcontra
      rw [hcontra] at hnotin
      exact hnotin hin
    have hright : (task.scannedImeis.filter
        (fun id => (task.items.find? (fun i => i.imei = id)).isNone)).filter
          (fun id => (overageOf lookup id).imei = item.imei) = [] := by
      simp only [overageOf_imei]
      rw [List.filter_eq_nil_iff]
      intro y hy
      simpa using overage_pred_of_matching task item hitem y hy
    rw [hds, List.filter_append, filter_map_shortage, filter_map_overage,
      hleft, hright]
    simp
  · rw [hds, List.filter_append, List.filter_append, hshort_self, hshort_none,
      hover_self, hover_none]
    simp
  · rw [hds, List.filter_append, hshort_self, hshort_none]
    simp only [List.append_nil, List.map_map]
    apply List.map_congr_left
    intro i _
    simp [shortageOf]
  · rw [hds, List.filter_append, hover_self, hover_none]
    simp only [List.nil_append, List.map_map]
    have hmapid : (task.scannedImeis.filter
        (fun id => (task.items.find? (fun i => i.imei = id)).isNone)).map
          (Discrepancy.imei ∘ overageOf lookup)
        = task.scannedImeis.filter
            (fun id => (task.items.find? (fun i => i.imei = id)).isNone) := by
      have : ∀ L : List String,
          L.map (Discrepancy.imei ∘ overageOf lookup) = L := by
        intro L
        induction L with
        | nil => rfl
        | cons a L ih => simp [Function.comp, overageOf_imei, ih]
      exact this _
    rw [hmapid]
    apply List.filter_congr
    intro id _
    by_cases hf : task.items.find? (fun i => i.imei = id) = none
    · rw [hf]
      have hforall : ∀ i ∈ task.items, i.imei ≠ id := by
        intro i hi
        have := List.find?_eq_none.mp hf i hi
        simpa using this
      simp only [Option.isNone_none]
      exact (decide_eq_true hforall).symm
    · obtain ⟨a, ha⟩ := Option.ne_none_iff_exists'.mp hf
      have haimei : a.imei = id := by simpa using List.find?_some ha
      have hamem : a ∈ task.items := List.mem_of_find?_eq_some ha
      rw [ha]
      have hnall : ¬(∀ i ∈ task.items, i.imei ≠ id) := fun hall =>
        hall a hamem haimei
      simp [hnall]

/-- C1 witness: in the concrete session, unobserved item B yields exactly
its own shortage record. -/
theorem c1_discrepancy_calculator_witness :
    (initialDiscrepancies exLookup exTask).filter (fun d => d.imei = "B1")
      = [shortageOf exItemB] :=
  (c1_discrepancy_calculator exLookup exTask rfl (by decide) (by decide)).1
    exItemB (by decide) (by decide)

/-- C7: the ledger query splits the expectation list by observed-set
membership into the unscanned and scanned buckets, orders the unscanned
bucket with all IDENTIFIER_SCAN items before all AGGREGATE_QUANTITY items
while otherwise keeping the expectation list's relative order, together the
two buckets are a permutation of the expectation list, and the overage list
is exactly the observed identifiers with no matching expectation entry. -/
theorem c7_scanner_ledger_query (task : InventoryTask) :
    (scannerView task).unscannedItems
      = (task.items.filter (fun i => i.imei ∉ task.scannedImeis)).filter
          (fun i => i.countMethod = CountMethod.SCAN)
        ++ (task.items.filter (fun i => i.imei ∉ task.scannedImeis)).filter
          (fun i => i.countMethod ≠ CountMethod.SCAN) ∧
    (scannerView task).scannedItems
      = task.items.filter (fun i => i.imei ∈ task.scannedImeis) ∧
    (∀ i ∈ task.items,
      (i ∈ (scannerView task).unscannedItems ↔ i.imei ∉ task.scannedImeis) ∧
      (i ∈ (scannerView task).scannedItems ↔ i.imei ∈ task.scannedImeis)) ∧
    List.Perm
      ((scannerView task).unscannedItems ++ (scannerView task).scannedItems)
      task.items ∧
    (∀ id, id ∈ (scannerView task).overageImeis ↔
      id ∈ task.scannedImeis ∧ ∀ i ∈ task.items, i.imei ≠ id) := by
  have hunsort : (scannerView task).unscannedItems
      = List.insertionSort scanFirstLE
          (task.items.filter (fun i => i.imei ∉ task.scannedImeis)) := rfl
  have hperm : List.Perm (scannerView task).unscannedItems
      (task.items.filter (fun i => i.imei ∉ task.scannedImeis)) := by
    rw [hunsort]
    exact List.perm_insertionSort scanFirstLE _
  refine ⟨?_, rfl, ?_, ?_, ?_⟩
  · rw [hunsort, insertionSort_scanFirst]
  · intro i hi
    constructor
    · rw [hperm.mem_iff]
      simp [List.mem_filter, hi]
    · simp [scannerView, List.mem_filter, hi]
  · have hparts : List.Perm
        ((task.items.filter (fun i => i.imei ∉ task.scannedImeis))
          ++ (scannerView task).scannedItems)
        task.items := by
      have hcongr : task.items.filter
            (fun i => !(decide (i.imei ∉ task.scannedImeis)))
          = task.items.filter (fun i => i.imei ∈ task.scannedImeis) := by
        apply List.filter_congr
        intro i _
        simp [decide_not]
      have := List.filter_append_perm
        (fun i => decide (i.imei ∉ task.scannedImeis)) task.items
      rw [hcongr] at this
      exact this
    exact (hperm.append_right (scannerView task).scannedItems).trans hparts
  · intro id
    simp only [scannerView, List.mem_filter, Option.isNone_iff_eq_none,
      List.find?_eq_none, decide_eq_true_eq]
